import Mathlib

/-!
Verification of `src/python_helpers/text_collector_from_tg_transcribed_voices.py`.

The script aggregates `.txt` files of a directory into one markdown document,
ordered by an integer key parsed from each filename.  We embed the data model
(`TextFile`), the Collector (`TextCollector.__init__`, `collect_files`) and the
Writer (`create_markdown`) as pure Lean functions over an explicit model of the
relevant filesystem state, and prove the specified properties about them.

Strings are manipulated as `List Char` (Python's `str.split` and string
comparison are code-point-wise), so every definition reduces structurally and
concrete runs can be checked by `decide`.

Filesystem model:
* `Entry` models one directory entry as seen by `glob` / `is_file` / `open`:
  its name, whether it is a regular file, and `some content` when reading it
  as UTF-8 succeeds (`none` models a read/decoding failure).
* `SourceState` models the source path: whether it exists (`Path.exists()`),
  whether it is a directory, and its entries.
* `OutputState` models the output path: whether the parent directory chain
  exists, the current content of the output file (if any), and whether opening
  and writing the output file succeeds (`writable = false` models permission
  denied / disk full).

Python's stable `sorted` / `list.sort` are embedded as a stable insertion sort
`sortLe`; any stable comparison sort is extensionally equal to it.
-/

/-- Python's `str.split(sep)` with a one-character separator: always returns
at least one (possibly empty) segment; adjacent separators produce empty
segments. -/
def pySplit (sep : Char) : List Char → List (List Char)
  | [] => [[]]
  | c :: rest =>
    let r := pySplit sep rest
    if c == sep then [] :: r
    else
      match r with
      | [] => [[c]]
      | seg :: segs => (c :: seg) :: segs

/-- Whitespace characters stripped by Python's `int()` before parsing
(`str.strip` default set: space, tab, newline, carriage return, form feed,
vertical tab). -/
def pyWhitespace (c : Char) : Bool :=
  c == ' ' || c == '\t' || c == '\n' || c == '\x0d' || c == '\x0c' || c == '\x0b'

/-- Strip leading and trailing Python whitespace from a character list. -/
def pyStrip (cs : List Char) : List Char :=
  ((cs.dropWhile pyWhitespace).reverse.dropWhile pyWhitespace).reverse

/-- Value of a list of decimal digit characters, most significant first. -/
def digitsToNat (cs : List Char) : Nat :=
  cs.foldl (fun acc c => acc * 10 + (c.toNat - 48)) 0

/-- Parse a non-empty all-digit character list; `none` otherwise. -/
def parseDigits (cs : List Char) : Option Nat :=
  if cs.isEmpty then none
  else if cs.all (·.isDigit) then some (digitsToNat cs) else none

/-- Python's `int(s)` on a string: strips whitespace, accepts an optional
`+`/`-` sign followed by a non-empty run of ASCII decimal digits (leading
zeros allowed); anything else raises `ValueError`, modelled as `none`.
(Python also allows single underscores between digits — impossible here, the
argument always comes from `str.split('_')` — and non-ASCII Unicode digit
forms, which are not modelled.) -/
def pyInt (cs : List Char) : Option Int :=
  match pyStrip cs with
  | '-' :: rest => (parseDigits rest).map (fun n => -(n : Int))
  | '+' :: rest => (parseDigits rest).map (fun n => (n : Int))
  | stripped => (parseDigits stripped).map (fun n => (n : Int))

/-- The `TextFile` dataclass: filename, content, and the integer sort key. -/
structure TextFile where
  filename : String
  content : String
  order : Int
deriving DecidableEq

/-- `int(filename.split('@')[0].split('_')[1])` from `TextFile.from_filename`:
`none` models the `IndexError` (no token at index 1) or `ValueError` (not an
integer) that the method logs and re-raises.  `split` with an explicit
separator always returns at least one segment, so index `[0]` cannot fail;
`headD []` is that total head. -/
def orderFromFilename (filename : String) : Option Int :=
  match (pySplit '_' ((pySplit '@' filename.toList).headD []))[1]? with
  | none => none
  | some tok => pyInt tok

/-- `TextFile.from_filename`: builds the record, or `none` when the order
cannot be parsed (the exception is caught by the caller's per-file handler). -/
def from_filename (filename : String) (content : String) : Option TextFile :=
  match orderFromFilename filename with
  | none => none
  | some o => some { filename := filename, content := content, order := o }

/-- One directory entry as observed by the script: its name, the result of
`is_file()`, and `some text` when `open(...).read()` succeeds (UTF-8 decoded),
`none` when reading raises. -/
structure Entry where
  name : String
  isFile : Bool
  content : Option String
deriving DecidableEq

/-- The source path: `Path.exists()`, whether it is a directory, and its
directory entries (meaningful when it is a directory). -/
structure SourceState where
  pathExists : Bool
  isDirectory : Bool
  entries : List Entry

/-- The output path's state: whether the parent directory chain exists,
the output file's current content (`none` = absent), and whether opening
and writing the file succeeds. -/
structure OutputState where
  parentExists : Bool
  fileContent : Option String
  writable : Bool
deriving DecidableEq

/-- Errors that escape to `main`: the `FileNotFoundError` raised by
`TextCollector.__init__` (the spec's `DirectoryNotFound`) and the write
failure re-raised by `create_markdown` (the spec's `WriteError`). -/
inductive RunError where
  | directoryNotFound
  | writeError
deriving DecidableEq

/-- Stable insertion step: `x` is placed before the first element `y` with
`le x y`, i.e. after every element it does not have to precede. -/
def insertLe (le : α → α → Bool) (x : α) : List α → List α
  | [] => [x]
  | y :: ys => if le x y then x :: y :: ys else y :: insertLe le x ys

/-- Stable insertion sort: extensionally equal to Python's stable
`sorted` / `list.sort` with comparison `le`. -/
def sortLe (le : α → α → Bool) : List α → List α
  | [] => []
  | x :: xs => insertLe le x (sortLe le xs)

/-- Python's `<=` on strings: lexicographic by Unicode code point. -/
def lexLe : List Char → List Char → Bool
  | [], _ => true
  | _ :: _, [] => false
  | a :: as, b :: bs =>
    if a.toNat < b.toNat then true
    else if b.toNat < a.toNat then false
    else lexLe as bs

/-- Comparison of directory entries used by `sorted(...)` on `Path` objects:
paths with the same parent compare by filename, lexicographically by Unicode
code point. -/
def nameLe (a b : Entry) : Bool := lexLe a.name.toList b.name.toList

/-- Comparison used by `text_files.sort(key=lambda x: x.order)`. -/
def orderLe (a b : TextFile) : Bool := decide (a.order ≤ b.order)

/-- Whether a name matches the glob pattern `*.txt`: `*` matches any (possibly
empty) sequence, so the matches are exactly the names ending in `.txt`. -/
def matchesTxtGlob (name : String) : Bool :=
  name.toList.reverse.take 4 == ['t', 'x', 't', '.']

/-- The generator filter inside `collect_files`: `glob('*.txt')` keeps names
matching `*.txt`, and `if f.is_file()` keeps regular files. -/
def isCandidate (e : Entry) : Bool := matchesTxtGlob e.name && e.isFile

/-- The body of the per-file loop: read the file's content (a read failure is
logged and the file skipped), then `TextFile.from_filename` (a parse failure
is logged and the file skipped); both exceptions are caught by the same
per-file `except` block. -/
def processEntry (e : Entry) : Option TextFile :=
  match e.content with
  | none => none
  | some c => from_filename e.name c

/-- The `text_files` list before the final `.sort`: `.txt` regular files
sorted by name, each read and parsed, with per-file failures skipped. -/
def parsedRecords (entries : List Entry) : List TextFile :=
  (sortLe nameLe (entries.filter isCandidate)).filterMap processEntry

/-- The pure core of `TextCollector.collect_files` on a directory listing:
filter to `.txt` regular files, sort by name, read/parse each (skipping
failures), then stable-sort by `order`. -/
def collectFilesList (entries : List Entry) : List TextFile :=
  sortLe orderLe (parsedRecords entries)

/-- `TextCollector.__init__`: raises `FileNotFoundError` iff
`Path.exists()` is false.  (It does not check `is_dir()`.) -/
def TextCollector_init (src : SourceState) : Except RunError Unit :=
  if src.pathExists then Except.ok () else Except.error RunError.directoryNotFound

/-- `TextCollector.collect_files`: on a directory, the sorted list; on an
existing non-directory path, `Path.glob` yields an empty iterator (CPython's
pathlib, since 3.7, checks `is_dir` on the parent before scanning and returns
no entries rather than raising), so the loop sees no files.  The per-file
loop never lets an exception escape, so nothing reaches the surrounding
`try`/`except` and the method always returns normally. -/
def collect_files (src : SourceState) : Except RunError (List TextFile) :=
  Except.ok (collectFilesList (if src.isDirectory then src.entries else []))

/-- The document text written by `create_markdown`'s loop: for each record, in
order, `'# {filename}\n\n'` followed by `'{content}\n\n'`. -/
def createMarkdownText (files : List TextFile) : String :=
  files.foldl (fun acc tf => acc ++ ("# " ++ tf.filename ++ "\n\n") ++ (tf.content ++ "\n\n")) ""

/-- `TextCollector.create_markdown`: `mkdir(parents=True, exist_ok=True)` on
the parent (idempotent, no error when it exists), then `open(output, 'w')`
truncates and writes the document; a write failure is logged and re-raised,
otherwise the count of records written is reported via `logger.info`.
Returns the resulting output state and the outcome. -/
def create_markdown (out : OutputState) (files : List TextFile) :
    OutputState × Except RunError Nat :=
  let out1 := { out with parentExists := true }
  if out1.writable then
    ({ out1 with fileContent := some (createMarkdownText files) }, Except.ok files.length)
  else
    (out1, Except.error RunError.writeError)

/-- The `main` pipeline: construct the collector, collect files, write the
document; every raised error propagates to the top level (non-zero exit).
Returns the final output state and either the written-record count or the
escaping error. -/
def run (src : SourceState) (out : OutputState) : OutputState × Except RunError Nat :=
  match TextCollector_init src with
  | Except.error e => (out, Except.error e)
  | Except.ok () =>
    match collect_files src with
    | Except.error e => (out, Except.error e)
    | Except.ok files => create_markdown out files

/-! Spec-side definitions, written from the specification's words, for the
refinement claims C2 and C5. -/

/-- Modelled from the spec (§4.1 step 3): "splitting the filename on the `@`
character and taking the first segment, then splitting that segment on `_`
and taking the second token (index 1), then parsing it as an integer". -/
def specOrderKey (filename : String) : Option Int :=
  match pySplit '_' ((pySplit '@' filename.toList).headD []) with
  | _ :: tok :: _ => pyInt tok
  | _ => none

/-- Modelled from the spec (§6): one output block `# <filename>\n\n<content>\n\n`. -/
def specBlock (tf : TextFile) : String :=
  "# " ++ tf.filename ++ "\n\n" ++ tf.content ++ "\n\n"

/-- Modelled from the spec (§6): the output document is the concatenation of
the blocks, one per record, in the given order. -/
def specDocument : List TextFile → String
  | [] => ""
  | tf :: rest => specBlock tf ++ specDocument rest

/-! Concrete directory listings used in examples and witnesses. -/

/-- The spec §8 example listing: `note_3@x.txt`/"C", `note_1@x.txt`/"A",
`note_2@x.txt`/"B". -/
def demoEntries : List Entry :=
  [{ name := "note_3@x.txt", isFile := true, content := some "C" },
   { name := "note_1@x.txt", isFile := true, content := some "A" },
   { name := "note_2@x.txt", isFile := true, content := some "B" }]

/-- A listing with an unparsable filename, an unreadable file, and one valid
file. -/
def faultyEntries : List Entry :=
  [{ name := "bad.txt", isFile := true, content := some "X" },
   { name := "note_2@x.txt", isFile := true, content := none },
   { name := "note_1@x.txt", isFile := true, content := some "A" }]

/-! Basic properties of the stable insertion sort. -/

theorem perm_insertLe (le : α → α → Bool) (x : α) (l : List α) :
    (insertLe le x l).Perm (x :: l) := by
  induction l with
  | nil => exact List.Perm.refl _
  | cons y ys ih =>
    unfold insertLe
    cases hxy : le x y with
    | true => exact List.Perm.refl _
    | false => exact (ih.cons y).trans (List.Perm.swap x y ys)

theorem perm_sortLe (le : α → α → Bool) (l : List α) : (sortLe le l).Perm l := by
  induction l with
  | nil => exact List.Perm.refl _
  | cons x xs ih => exact (perm_insertLe le x _).trans (ih.cons x)

theorem mem_insertLe (le : α → α → Bool) (x : α) (l : List α) (a : α) :
    a ∈ insertLe le x l ↔ a = x ∨ a ∈ l := by
  rw [(perm_insertLe le x l).mem_iff, List.mem_cons]

theorem mem_sortLe (le : α → α → Bool) (l : List α) (a : α) :
    a ∈ sortLe le l ↔ a ∈ l := (perm_sortLe le l).mem_iff

theorem pairwise_insertLe (le : α → α → Bool) (R : α → α → Prop)
    (htrans : ∀ a b c, R a b → R b c → R a c)
    (x : α) (l : List α) (hl : l.Pairwise R)
    (hx : ∀ y ∈ l, (le x y = true → R x y) ∧ (le x y = false → R y x)) :
    (insertLe le x l).Pairwise R := by
  induction l with
  | nil => simp [insertLe]
  | cons y ys ih =>
    rcases List.pairwise_cons.mp hl with ⟨hy, hys⟩
    unfold insertLe
    cases hxy : le x y with
    | true =>
      refine List.pairwise_cons.mpr ⟨?_, hl⟩
      intro z hz
      rcases List.mem_cons.mp hz with h | hz'
      · rw [h]
        exact (hx y (List.mem_cons_self _ _)).1 hxy
      · exact htrans x y z ((hx y (List.mem_cons_self _ _)).1 hxy) (hy z hz')
    | false =>
      refine List.pairwise_cons.mpr ⟨?_, ih hys ?_⟩
      · intro z hz
        rcases (mem_insertLe le x ys z).mp hz with h | hz'
        · rw [h]
          exact (hx y (List.mem_cons_self _ _)).2 hxy
        · exact hy z hz'
      · intro z hz
        exact hx z (List.mem_cons_of_mem _ hz)

theorem pairwise_sortLe (le : α → α → Bool) (R : α → α → Prop)
    (htrans : ∀ a b c, R a b → R b c → R a c)
    (hcomp : ∀ a b, (le a b = true → R a b) ∧ (le a b = false → R b a))
    (l : List α) : (sortLe le l).Pairwise R := by
  induction l with
  | nil => simp [sortLe]
  | cons x xs ih =>
    unfold sortLe
    exact pairwise_insertLe le R htrans x _ ih (fun y _ => hcomp x y)

/-! Properties of the lexicographic string comparison. -/

theorem lexLe_refl (a : List Char) : lexLe a a = true := by
  induction a with
  | nil => rfl
  | cons c cs ih => simp [lexLe, ih]

theorem lexLe_total (a b : List Char) : lexLe a b = true ∨ lexLe b a = true := by
  induction a generalizing b with
  | nil => exact Or.inl rfl
  | cons c cs ih =>
    cases b with
    | nil => exact Or.inr rfl
    | cons d ds =>
      by_cases h1 : c.toNat < d.toNat
      · left; simp [lexLe, h1]
      · by_cases h2 : d.toNat < c.toNat
        · right; simp [lexLe, h1, h2]
        · rcases ih ds with h | h
          · left; simp [lexLe, h1, h2, h]
          · right; simp [lexLe, h1, h2, h]

theorem lexLe_trans (a b c : List Char) (hab : lexLe a b = true)
    (hbc : lexLe b c = true) : lexLe a c = true := by
  induction a generalizing b c with
  | nil => rfl
  | cons x xs ih =>
    cases b with
    | nil => simp [lexLe] at hab
    | cons y ys =>
      cases c with
      | nil => simp [lexLe] at hbc
      | cons z zs =>
        simp only [lexLe] at hab hbc ⊢
        by_cases hxy : x.toNat < y.toNat <;> by_cases hyz : y.toNat < z.toNat <;>
          simp only [hxy, hyz, if_true, if_false, if_pos, if_neg, not_false_iff] at hab hbc ⊢
        · have hxz : x.toNat < z.toNat := Nat.lt_trans hxy hyz
          simp [hxz]
        · by_cases hzy : z.toNat < y.toNat
          · simp [hzy] at hbc
          · have hyz' : y.toNat = z.toNat := Nat.le_antisymm (Nat.le_of_not_lt hzy) (Nat.le_of_not_lt hyz)
            have hxz : x.toNat < z.toNat := hyz' ▸ hxy
            simp [hxz]
        · by_cases hyx : y.toNat < x.toNat
          · simp [hyx] at hab
          · have hxy' : x.toNat = y.toNat := Nat.le_antisymm (Nat.le_of_not_lt hyx) (Nat.le_of_not_lt hxy)
            have hxz : x.toNat < z.toNat := hxy' ▸ hyz
            simp [hxz]
        · by_cases hyx : y.toNat < x.toNat
          · simp [hyx] at hab
          · by_cases hzy : z.toNat < y.toNat
            · simp [hzy] at hbc
            · have hxy' : x.toNat = y.toNat := Nat.le_antisymm (Nat.le_of_not_lt hyx) (Nat.le_of_not_lt hxy)
              have hyz' : y.toNat = z.toNat := Nat.le_antisymm (Nat.le_of_not_lt hzy) (Nat.le_of_not_lt hyz)
              have hxz : ¬ x.toNat < z.toNat := by omega
              have hzx : ¬ z.toNat < x.toNat := by omega
              simp only [hyx, hzy, if_neg, not_false_iff, hxz, hzx, if_false] at hab hbc ⊢
              exact ih ys zs hab hbc

theorem lexLe_antisymm (a b : List Char) (hab : lexLe a b = true)
    (hba : lexLe b a = true) : a = b := by
  induction a generalizing b with
  | nil =>
    cases b with
    | nil => rfl
    | cons d ds => simp [lexLe] at hba
  | cons c cs ih =>
    cases b with
    | nil => simp [lexLe] at hab
    | cons d ds =>
      simp only [lexLe] at hab hba
      by_cases h1 : c.toNat < d.toNat
      · have h2 : ¬ d.toNat < c.toNat := by omega
        simp [h1, h2] at hba
      · by_cases h2 : d.toNat < c.toNat
        · simp [h1, h2] at hab
        · have hcd : c = d := by
            have hnat : c.toNat = d.toNat := by omega
            calc c = Char.ofNat c.toNat := (Char.ofNat_toNat c).symm
              _ = Char.ofNat d.toNat := by rw [hnat]
              _ = d := Char.ofNat_toNat d
          simp only [h1, h2, if_neg, not_false_iff] at hab hba
          rw [hcd, ih ds (by simpa [hcd] using hab) (by simpa [hcd] using hba)]

/-! Properties of the Collector pipeline. -/

theorem processEntry_filename (e : Entry) (tf : TextFile)
    (h : processEntry e = some tf) : tf.filename = e.name := by
  unfold processEntry from_filename at h
  revert h
  cases e.content with
  | none => intro h; cases h
  | some c =>
    cases orderFromFilename e.name with
    | none => intro h; cases h
    | some o => intro h; cases h; rfl

theorem sortLe_orderLe_sorted (l : List TextFile) :
    (sortLe orderLe l).Pairwise (fun a b => a.order ≤ b.order) := by
  apply pairwise_sortLe
  · intro a b c h1 h2
    exact le_trans h1 h2
  · intro a b
    constructor
    · intro h
      exact of_decide_eq_true h
    · intro h
      exact le_of_not_le (of_decide_eq_false h)

/-- The Collector's result is sorted ascending by `order`. -/
theorem collectFilesList_sorted (entries : List Entry) :
    (collectFilesList entries).Pairwise (fun a b => a.order ≤ b.order) :=
  sortLe_orderLe_sorted _

theorem sortLe_nameLe_sorted (l : List Entry) :
    (sortLe nameLe l).Pairwise (fun a b => lexLe a.name.toList b.name.toList = true) := by
  apply pairwise_sortLe
  · intro a b c h1 h2
    exact lexLe_trans _ _ _ h1 h2
  · intro a b
    constructor
    · intro h
      exact h
    · intro h
      have h' : lexLe a.name.toList b.name.toList = false := h
      rcases lexLe_total a.name.toList b.name.toList with htot | htot
      · rw [htot] at h'; cases h'
      · exact htot

/-- Before the final sort, the records are in ascending filename order. -/
theorem parsedRecords_pairwise_name (entries : List Entry) :
    (parsedRecords entries).Pairwise
      (fun a b => lexLe a.filename.toList b.filename.toList = true) := by
  unfold parsedRecords
  rw [List.pairwise_filterMap]
  apply (sortLe_nameLe_sorted (entries.filter isCandidate)).imp_of_mem
  intro e1 e2 _ _ h tf1 h1 tf2 h2
  rw [processEntry_filename e1 tf1 h1, processEntry_filename e2 tf2 h2]
  exact h

/-- Ascending (order, filename) lexicographic relation on records. -/
def keyLe (a b : TextFile) : Prop :=
  a.order < b.order ∨
    (a.order = b.order ∧ lexLe a.filename.toList b.filename.toList = true)

theorem keyLe_trans (a b c : TextFile) (h1 : keyLe a b) (h2 : keyLe b c) : keyLe a c := by
  rcases h1 with h1 | ⟨e1, n1⟩
  · rcases h2 with h2 | ⟨e2, n2⟩
    · exact Or.inl (lt_trans h1 h2)
    · exact Or.inl (by omega)
  · rcases h2 with h2 | ⟨e2, n2⟩
    · exact Or.inl (by omega)
    · exact Or.inr ⟨e1.trans e2, lexLe_trans _ _ _ n1 n2⟩

/-- The stable sort by `order` of a list in ascending filename order is in
ascending (order, filename) order. -/
theorem sortLe_orderLe_pairwise_key (l : List TextFile)
    (hl : l.Pairwise (fun a b => lexLe a.filename.toList b.filename.toList = true)) :
    (sortLe orderLe l).Pairwise keyLe := by
  induction l with
  | nil => simp [sortLe]
  | cons x xs ih =>
    rcases List.pairwise_cons.mp hl with ⟨hx, hxs⟩
    unfold sortLe
    apply pairwise_insertLe orderLe keyLe keyLe_trans x _ (ih hxs)
    intro y hy
    have hyxs : y ∈ xs := (mem_sortLe _ _ _).mp hy
    constructor
    · intro hle
      have h1 : x.order ≤ y.order := of_decide_eq_true hle
      rcases lt_or_eq_of_le h1 with h | h
      · exact Or.inl h
      · exact Or.inr ⟨h, hx y hyxs⟩
    · intro hle
      have h1 : ¬ x.order ≤ y.order := of_decide_eq_false hle
      exact Or.inl (lt_of_not_le h1)

theorem collectFilesList_pairwise_key (entries : List Entry) :
    (collectFilesList entries).Pairwise keyLe :=
  sortLe_orderLe_pairwise_key _ (parsedRecords_pairwise_name entries)

/-- Membership in the Collector's result: exactly the `.txt` regular files
whose content reads and whose filename parses. -/
theorem mem_collectFilesList (entries : List Entry) (tf : TextFile) :
    tf ∈ collectFilesList entries ↔
      ∃ e ∈ entries, isCandidate e = true ∧
        ∃ c, e.content = some c ∧ from_filename e.name c = some tf := by
  unfold collectFilesList parsedRecords
  rw [mem_sortLe, List.mem_filterMap]
  constructor
  · rintro ⟨e, he, hpe⟩
    have he' : e ∈ entries.filter isCandidate := (mem_sortLe _ _ _).mp he
    rw [List.mem_filter] at he'
    refine ⟨e, he'.1, he'.2, ?_⟩
    unfold processEntry at hpe
    revert hpe
    cases hc : e.content with
    | none => intro hpe; cases hpe
    | some c => intro hpe; exact ⟨c, rfl, hpe⟩
  · rintro ⟨e, he, hcand, c, hc, hff⟩
    refine ⟨e, ?_, ?_⟩
    · rw [mem_sortLe, List.mem_filter]
      exact ⟨he, hcand⟩
    · unfold processEntry
      rw [hc]
      exact hff

/-- The Collector's result depends only on the multiset of entries. -/
theorem collectFilesList_perm_congr (e1 e2 : List Entry) (h : e1.Perm e2) :
    (collectFilesList e1).Perm (collectFilesList e2) := by
  unfold collectFilesList parsedRecords
  refine (perm_sortLe _ _).trans (List.Perm.trans ?_ (perm_sortLe _ _).symm)
  refine List.Perm.filterMap _ ?_
  exact (perm_sortLe _ _).trans (List.Perm.trans (List.Perm.filter _ h) (perm_sortLe _ _).symm)

/-- Distinct entry names (true of any real directory) give distinct record
filenames. -/
theorem collectFilesList_pairwise_ne (entries : List Entry)
    (h : entries.Pairwise (fun a b => a.name ≠ b.name)) :
    (collectFilesList entries).Pairwise (fun a b => a.filename ≠ b.filename) := by
  have h1 : (entries.filter isCandidate).Pairwise (fun a b => a.name ≠ b.name) :=
    h.filter _
  have h2 : (sortLe nameLe (entries.filter isCandidate)).Pairwise
      (fun a b => a.name ≠ b.name) :=
    (List.Perm.pairwise_iff (fun hxy => hxy.symm) (perm_sortLe nameLe _)).mpr h1
  have h3 : (parsedRecords entries).Pairwise (fun a b => a.filename ≠ b.filename) := by
    unfold parsedRecords
    rw [List.pairwise_filterMap]
    refine h2.imp ?_
    intro a b hab tf1 h1' tf2 h2'
    rw [Option.mem_def] at h1' h2'
    rw [processEntry_filename a tf1 h1', processEntry_filename b tf2 h2']
    exact hab
  exact (List.Perm.pairwise_iff (fun hxy => hxy.symm)
    (perm_sortLe orderLe (parsedRecords entries))).mpr h3

/-- Unfolding of the Writer's fold into block concatenation. -/
theorem foldl_markdown (files : List TextFile) (acc : String) :
    files.foldl
        (fun acc tf => acc ++ ("# " ++ tf.filename ++ "\n\n") ++ (tf.content ++ "\n\n")) acc
      = acc ++ specDocument files := by
  induction files generalizing acc with
  | nil => simp [specDocument]
  | cons tf rest ih =>
    simp only [List.foldl, specDocument, specBlock]
    rw [ih]
    simp [String.append_assoc]

/-! The claims. -/

/-- C1 (counterexample): a source path that exists but is not a directory is
accepted by `TextCollector.__init__` — no `DirectoryNotFound` is raised at
construction — and that run writes an (empty) output file, refuting both the
claimed constructor failure and the claimed absence of an output file. -/
theorem C1_counterexample :
    TextCollector_init { pathExists := true, isDirectory := false, entries := [] } =
        Except.ok () ∧
      (run { pathExists := true, isDirectory := false, entries := [] }
          { parentExists := true, fileContent := none, writable := true }).1.fileContent =
        some "" :=
  ⟨rfl, rfl⟩

/-- C1 (amended): constructing the Collector raises `DirectoryNotFound`
exactly when the source path does not exist, before any scanning, and then the
run produces no output file.  A path that exists but is not a directory passes
construction; `glob` on it yields no entries (CPython ≥ 3.7), so that run
succeeds with count 0 and writes an empty output document. -/
theorem C1_init_existence_check (src : SourceState) (out : OutputState) :
    (src.pathExists = false →
      TextCollector_init src = Except.error RunError.directoryNotFound ∧
      run src out = (out, Except.error RunError.directoryNotFound)) ∧
    (src.pathExists = true → src.isDirectory = false → out.writable = true →
      TextCollector_init src = Except.ok () ∧
      run src out =
        ({ parentExists := true, fileContent := some "", writable := true },
          Except.ok 0)) := by
  constructor
  · intro h
    have h1 : TextCollector_init src = Except.error RunError.directoryNotFound := by
      simp [TextCollector_init, h]
    refine ⟨h1, ?_⟩
    unfold run
    rw [h1]
  · intro hex hdir hw
    have h1 : TextCollector_init src = Except.ok () := by
      simp [TextCollector_init, hex]
    have h2 : collect_files src = Except.ok [] := by
      have hnil : collectFilesList [] = [] := rfl
      simp [collect_files, hdir, hnil]
    refine ⟨h1, ?_⟩
    unfold run
    rw [h1, h2]
    obtain ⟨p, f, w⟩ := out
    cases hw
    simp [create_markdown]
    rfl

/-- C1 (witness): both amended branches at concrete states. -/
theorem C1_witness :
    (TextCollector_init { pathExists := false, isDirectory := false, entries := [] } =
        Except.error RunError.directoryNotFound ∧
      run { pathExists := false, isDirectory := false, entries := [] }
          { parentExists := false, fileContent := none, writable := true } =
        ({ parentExists := false, fileContent := none, writable := true },
          Except.error RunError.directoryNotFound)) ∧
    (TextCollector_init { pathExists := true, isDirectory := false, entries := [] } =
        Except.ok () ∧
      run { pathExists := true, isDirectory := false, entries := [] }
          { parentExists := false, fileContent := some "OLD", writable := true } =
        ({ parentExists := true, fileContent := some "", writable := true },
          Except.ok 0)) :=
  ⟨(C1_init_existence_check _ _).1 rfl, (C1_init_existence_check _ _).2 rfl rfl rfl⟩

/-- C2: the ordering key of every filename is obtained by splitting on `@`,
taking the first segment, splitting that on `_`, taking the token at index 1,
and parsing it as an integer; `voice_42@2023-01-01.txt` yields order 42. -/
theorem C2_order_key :
    (∀ filename : String, orderFromFilename filename = specOrderKey filename) ∧
    orderFromFilename "voice_42@2023-01-01.txt" = some 42 := by
  constructor
  · intro filename
    unfold orderFromFilename specOrderKey
    cases pySplit '_' ((pySplit '@' filename.toList).headD []) with
    | nil => simp
    | cons t rest =>
      cases rest with
      | nil => simp
      | cons t2 r2 => simp
  · decide

/-- C3: on any directory, `collect_files` returns normally, and its result
contains a record exactly for each `.txt` regular file whose content reads
and whose filename parses; files with unparsable names or unreadable content
are excluded without any error escaping `collect_files`. -/
theorem C3_per_file_recovery (src : SourceState) (h : src.isDirectory = true) :
    ∃ l, collect_files src = Except.ok l ∧
      ∀ tf, tf ∈ l ↔
        ∃ e ∈ src.entries, isCandidate e = true ∧
          ∃ c, e.content = some c ∧ from_filename e.name c = some tf := by
  refine ⟨collectFilesList src.entries, by simp [collect_files, h], ?_⟩
  intro tf
  exact mem_collectFilesList src.entries tf

/-- C3 (witness): a directory with a bad filename, an unreadable file and a
valid file. -/
theorem C3_witness :
    ∃ l, collect_files { pathExists := true, isDirectory := true, entries := faultyEntries } =
        Except.ok l ∧
      ∀ tf, tf ∈ l ↔
        ∃ e ∈ faultyEntries, isCandidate e = true ∧
          ∃ c, e.content = some c ∧ from_filename e.name c = some tf :=
  C3_per_file_recovery { pathExists := true, isDirectory := true, entries := faultyEntries } rfl

/-- C4: the Collector's result is sorted ascending by the parsed order and is
a permutation of the records it sorts (a stable sort adds or drops nothing);
on the spec's example directory the records come out in order 1, 2, 3. -/
theorem C4_sorted_ascending :
    (∀ entries : List Entry,
        (collectFilesList entries).Pairwise (fun a b => a.order ≤ b.order) ∧
        (collectFilesList entries).Perm (parsedRecords entries)) ∧
    collectFilesList demoEntries =
      [{ filename := "note_1@x.txt", content := "A", order := 1 },
       { filename := "note_2@x.txt", content := "B", order := 2 },
       { filename := "note_3@x.txt", content := "C", order := 3 }] := by
  refine ⟨fun entries => ⟨collectFilesList_sorted entries, perm_sortLe _ _⟩, by decide⟩

/-- C5: the Writer's document is exactly the concatenation, in sequence
order, of one block `# <filename>\n\n<content>\n\n` per record, and nothing
else. -/
theorem C5_block_format (files : List TextFile) :
    createMarkdownText files = specDocument files := by
  unfold createMarkdownText
  rw [foldl_markdown]
  exact String.empty_append _

/-- C6: the Writer first makes the output's parent directory chain exist —
with the same outcome whether or not it already existed (idempotent, no
error) — and then opens with truncation, so for every prior content the final
file content is exactly the new document, never an append. -/
theorem C6_parent_and_truncate (out : OutputState) (files : List TextFile) :
    (create_markdown out files).1.parentExists = true ∧
    create_markdown out files = create_markdown { out with parentExists := true } files ∧
    (out.writable = true →
      (create_markdown out files).1.fileContent = some (createMarkdownText files)) := by
  obtain ⟨p, f, w⟩ := out
  cases w <;> simp [create_markdown]

/-- C6 (witness): an output file with prior content `"OLD"` is replaced. -/
theorem C6_witness :
    (create_markdown { parentExists := false, fileContent := some "OLD", writable := true }
          [{ filename := "a.txt", content := "A", order := 1 }]).1.fileContent =
        some (createMarkdownText [{ filename := "a.txt", content := "A", order := 1 }]) ∧
    (create_markdown { parentExists := false, fileContent := some "OLD", writable := true }
          [{ filename := "a.txt", content := "A", order := 1 }]).1.parentExists = true :=
  ⟨(C6_parent_and_truncate _ _).2.2 rfl, (C6_parent_and_truncate _ _).1⟩

/-- C7: when no file qualifies (no `.txt` regular file, or every candidate is
skipped), the Collector returns the empty sequence without error and the run
succeeds, writing the empty (zero-byte) document. -/
theorem C7_empty_success (src : SourceState) (out : OutputState)
    (hex : src.pathExists = true) (hdir : src.isDirectory = true)
    (hw : out.writable = true)
    (hskip : ∀ e ∈ src.entries, isCandidate e = true → processEntry e = none) :
    collect_files src = Except.ok [] ∧
    createMarkdownText [] = "" ∧
    run src out =
      ({ parentExists := true, fileContent := some "", writable := true }, Except.ok 0) := by
  have hnil : collectFilesList src.entries = [] := by
    unfold collectFilesList parsedRecords
    have hfm : (sortLe nameLe (src.entries.filter isCandidate)).filterMap processEntry = [] := by
      rw [List.filterMap_eq_nil_iff]
      intro e he
      have he' : e ∈ src.entries.filter isCandidate := (mem_sortLe _ _ _).mp he
      rw [List.mem_filter] at he'
      exact hskip e he'.1 he'.2
    rw [hfm]
    rfl
  have hcf : collect_files src = Except.ok [] := by
    simp [collect_files, hdir, hnil]
  refine ⟨hcf, rfl, ?_⟩
  unfold run
  rw [show TextCollector_init src = Except.ok () by simp [TextCollector_init, hex], hcf]
  obtain ⟨p, f, w⟩ := out
  cases hw
  simp [create_markdown]
  rfl

/-- C7 (witness): a directory whose only `.txt` file has an unparsable name. -/
theorem C7_witness :
    collect_files
        { pathExists := true, isDirectory := true,
          entries := [{ name := "bad.txt", isFile := true, content := some "X" }] } =
      Except.ok [] ∧
    createMarkdownText [] = "" ∧
    run
      { pathExists := true, isDirectory := true,
        entries := [{ name := "bad.txt", isFile := true, content := some "X" }] }
      { parentExists := false, fileContent := some "OLD", writable := true } =
      ({ parentExists := true, fileContent := some "", writable := true }, Except.ok 0) :=
  C7_empty_success _ _ rfl rfl rfl (by decide)

/-- C8: an unwritable output path makes the Writer raise `WriteError`, which
aborts the whole run; a writable one succeeds reporting exactly the length of
the input sequence as the count of records written. -/
theorem C8_write_error_and_count (src : SourceState) (out : OutputState)
    (files : List TextFile) :
    (out.writable = false →
      (create_markdown out files).2 = Except.error RunError.writeError ∧
      (src.pathExists = true → src.isDirectory = true →
        (run src out).2 = Except.error RunError.writeError)) ∧
    (out.writable = true →
      (create_markdown out files).2 = Except.ok files.length) := by
  constructor
  · intro hw
    constructor
    · obtain ⟨p, f, w⟩ := out
      cases hw
      simp [create_markdown]
    · intro hex hdir
      unfold run
      rw [show TextCollector_init src = Except.ok () by simp [TextCollector_init, hex],
        show collect_files src = Except.ok (collectFilesList src.entries) by
          simp [collect_files, hdir]]
      obtain ⟨p, f, w⟩ := out
      cases hw
      simp [create_markdown]
  · intro hw
    obtain ⟨p, f, w⟩ := out
    cases hw
    simp [create_markdown]

/-- C8 (witness): write failure aborts a concrete run; success reports the
count 2 for a two-record sequence. -/
theorem C8_witness :
    ((create_markdown { parentExists := true, fileContent := none, writable := false }
        [{ filename := "a.txt", content := "A", order := 1 }]).2 =
      Except.error RunError.writeError ∧
    (run { pathExists := true, isDirectory := true, entries := [] }
        { parentExists := true, fileContent := none, writable := false }).2 =
      Except.error RunError.writeError) ∧
    (create_markdown { parentExists := true, fileContent := none, writable := true }
        [{ filename := "a.txt", content := "A", order := 1 },
         { filename := "b.txt", content := "B", order := 2 }]).2 = Except.ok 2 :=
  ⟨⟨((C8_write_error_and_count { pathExists := true, isDirectory := true, entries := [] } _
        [{ filename := "a.txt", content := "A", order := 1 }]).1 rfl).1,
    ((C8_write_error_and_count { pathExists := true, isDirectory := true, entries := [] }
        { parentExists := true, fileContent := none, writable := false }
        [{ filename := "a.txt", content := "A", order := 1 }]).1 rfl).2 rfl rfl⟩,
   (C8_write_error_and_count { pathExists := true, isDirectory := true, entries := [] } _ _).2 rfl⟩

/-- C9: the Collector's result is in ascending (order, filename) lexicographic
order — equal orders appear in ascending filename order, because the glob
listing is sorted before the stable sort by order — and therefore, for
directories (whose entry names are distinct), the result is independent of the
enumeration order of the entries. -/
theorem C9_deterministic_tie_break :
    (∀ entries : List Entry, (collectFilesList entries).Pairwise keyLe) ∧
    (∀ entries1 entries2 : List Entry, entries1.Perm entries2 →
      entries1.Pairwise (fun a b => a.name ≠ b.name) →
      collectFilesList entries1 = collectFilesList entries2) := by
  constructor
  · exact collectFilesList_pairwise_key
  · intro e1 e2 hperm hne
    have hne2 : e2.Pairwise (fun a b => a.name ≠ b.name) :=
      (List.Perm.pairwise_iff (fun hxy => hxy.symm) hperm).mp hne
    have hp : (collectFilesList e1).Perm (collectFilesList e2) :=
      collectFilesList_perm_congr _ _ hperm
    have hs1 : (collectFilesList e1).Pairwise
        (fun a b => keyLe a b ∧ a.filename ≠ b.filename) :=
      (collectFilesList_pairwise_key e1).and (collectFilesList_pairwise_ne e1 hne)
    have hs2 : (collectFilesList e2).Pairwise
        (fun a b => keyLe a b ∧ a.filename ≠ b.filename) :=
      (collectFilesList_pairwise_key e2).and (collectFilesList_pairwise_ne e2 hne2)
    haveI : IsAntisymm TextFile (fun a b => keyLe a b ∧ a.filename ≠ b.filename) := by
      constructor
      rintro a b ⟨hab, hne'⟩ ⟨hba, _⟩
      exfalso
      rcases hab with h | ⟨e, n⟩ <;> rcases hba with h' | ⟨e', n'⟩
      · omega
      · omega
      · omega
      · exact hne' (String.ext (lexLe_antisymm _ _ n n'))
    exact List.eq_of_perm_of_sorted hp hs1 hs2

/-- C9 (witness): two enumeration orders of the same two equal-order files
give the same result. -/
theorem C9_witness :
    collectFilesList
        [{ name := "b_1@x.txt", isFile := true, content := some "B" },
         { name := "a_1@x.txt", isFile := true, content := some "A" }] =
      collectFilesList
        [{ name := "a_1@x.txt", isFile := true, content := some "A" },
         { name := "b_1@x.txt", isFile := true, content := some "B" }] :=
  C9_deterministic_tie_break.2 _ _ (by decide) (by decide)

/-- C10: an order token with a sign or leading zeros parses and the file is
included (`note_-5@x.txt` gives order -5, `note_007@x.txt` gives order 7),
and in every result a record with negative order never follows one with
non-negative order. -/
theorem C10_sign_and_leading_zeros :
    orderFromFilename "note_-5@x.txt" = some (-5) ∧
    orderFromFilename "note_007@x.txt" = some 7 ∧
    collectFilesList
        [{ name := "note_-5@x.txt", isFile := true, content := some "N" },
         { name := "note_007@x.txt", isFile := true, content := some "P" }] =
      [{ filename := "note_-5@x.txt", content := "N", order := -5 },
       { filename := "note_007@x.txt", content := "P", order := 7 }] ∧
    ∀ entries : List Entry,
      (collectFilesList entries).Pairwise (fun a b => 0 ≤ a.order → 0 ≤ b.order) := by
  refine ⟨by decide, by decide, by decide, ?_⟩
  intro entries
  exact (collectFilesList_sorted entries).imp (fun hab h0 => le_trans h0 hab)
